import Mathlib

/-!
Verification of the `vite-plugin-react-devtools` core against its design
specification.  The definitions below are a shallow embedding, translated
from `src/react-detector.ts` and `src/source-navigation.ts`:

* JavaScript `string | undefined` values are `Option String`; JS string
  truthiness (the empty string is falsy) is `strTruthy`.
* JS `number | undefined` values are `Option Nat`; `0` is falsy
  (`natTruthy`).
* `existsSync` is abstracted as a parameter `fs : String → Bool`; runs of
  the code differing only in filesystem state are runs with different `fs`.
* `spawn` is abstracted by recording the attempted call (`SpawnCall`) and a
  boolean oracle saying whether the spawn call itself throws.
-/

namespace ReactDevtools

/-- JavaScript string truthiness for `string | null | undefined` values:
`none` models `null`/`undefined`, and the empty string is falsy. -/
def strTruthy : Option String → Option String
  | none => none
  | some s => if s = "" then none else some s

/-- JavaScript number truthiness for `number | undefined` values: `none`
models `undefined`, and `0` is falsy. -/
def natTruthy : Option Nat → Option Nat
  | none => none
  | some n => if n = 0 then none else some n

/-- Character-list version of `String.includes`: does the second list start
with the first? -/
def charsLeadWith : List Char → List Char → Bool
  | [], _ => true
  | _ :: _, [] => false
  | a :: as, b :: bs => a = b && charsLeadWith as bs

/-- Does the haystack contain the needle as a contiguous run? -/
def charsContain (needle : List Char) : List Char → Bool
  | [] => charsLeadWith needle []
  | c :: rest => charsLeadWith needle (c :: rest) || charsContain needle rest

/-- Embedding of JavaScript `haystack.includes(needle)`. -/
def strIncludes (haystack needle : String) : Bool :=
  charsContain needle.data haystack.data

/-! ## Editor registry (`SUPPORTED_EDITORS` in `source-navigation.ts`) -/

/-- One entry of the editor registry: display name, spawn command, and the
argument-builder closure `args(file, line?, column?)`. -/
structure EditorConfig where
  name : String
  command : String
  args : String → Option Nat → Option Nat → List String

/-- Shared body of the `code`, `code-insiders`, `sublime` and `atom`
argument builders: `line && column ? file:line:column : line ? file:line :
file`, with JS number truthiness. -/
def gotoLocation (file : String) (line column : Option Nat) : String :=
  match natTruthy line, natTruthy column with
  | some l, some c => file ++ ":" ++ toString l ++ ":" ++ toString c
  | some l, none => file ++ ":" ++ toString l
  | none, _ => file

/-- Shared body of the `webstorm` and `idea` builders:
`line ? file:line : file`. -/
def lineLocation (file : String) (line : Option Nat) : String :=
  match natTruthy line with
  | some l => file ++ ":" ++ toString l
  | none => file

/-- Shared body of the `vim` and `emacs` builders:
`line ? ['+line', file] : [file]`. -/
def plusLineArgs (file : String) (line : Option Nat) : List String :=
  match natTruthy line with
  | some l => ["+" ++ toString l, file]
  | none => [file]

/-- The `SUPPORTED_EDITORS` record, as a lookup from editor key to profile. -/
def SUPPORTED_EDITORS : String → Option EditorConfig
  | "code" => some ⟨"Visual Studio Code", "code",
      fun file line column => ["--goto", gotoLocation file line column]⟩
  | "code-insiders" => some ⟨"Visual Studio Code Insiders", "code-insiders",
      fun file line column => ["--goto", gotoLocation file line column]⟩
  | "webstorm" => some ⟨"WebStorm", "webstorm",
      fun file line _column => ["--line", lineLocation file line]⟩
  | "idea" => some ⟨"IntelliJ IDEA", "idea",
      fun file line _column => ["--line", lineLocation file line]⟩
  | "sublime" => some ⟨"Sublime Text", "subl",
      fun file line column => [gotoLocation file line column]⟩
  | "atom" => some ⟨"Atom", "atom",
      fun file line column => [gotoLocation file line column]⟩
  | "vim" => some ⟨"Vim", "vim",
      fun file line _column => plusLineArgs file line⟩
  | "emacs" => some ⟨"Emacs", "emacs",
      fun file line _column => plusLineArgs file line⟩
  | _ => none

/-! ## Editor launching (`launchEditor`) -/

/-- Record of a `spawn` call: command, argument list, and whether the
`detached` option was set. -/
structure SpawnCall where
  command : String
  args : List String
  detached : Bool
deriving DecidableEq

/-- POSIX-style absolute-path test used by `node:path`'s `resolve`. -/
def isAbsolutePath (p : String) : Bool :=
  match p.data with
  | [] => false
  | c :: _ => c = '/'

/-- Embedding of `resolve(base, file)` from `node:path` (dot-segment
normalization is not modelled; no claim depends on it): an absolute `file`
stands alone, a relative one is joined to the base. -/
def pathResolve (base file : String) : String :=
  if isAbsolutePath file then file else base ++ "/" ++ file

/-- The file-resolution step of `launchEditor`:
`projectRoot ? resolve(projectRoot, file) : resolve(file)`, where bare
`resolve(file)` resolves against the working directory. -/
def resolveLaunchFile (cwd : String) (projectRoot : Option String)
    (file : String) : String :=
  match strTruthy projectRoot with
  | some root => pathResolve root file
  | none => pathResolve cwd file

/-- Embedding of `launchEditor(editor, file, line?, column?, projectRoot?)`.
The returned pair is (the boolean result, the spawn call attempted, if
any).  `fs` stands for `existsSync`, `cwd` for the process working
directory, and `spawnSucceeds` tells whether the `spawn` call itself throws;
no exit code of the spawned editor exists in the model, matching the code,
which calls `child.unref()` and never observes the child again. -/
def launchEditor (editor file : String) (line column : Option Nat)
    (projectRoot : Option String) (cwd : String) (fs : String → Bool)
    (spawnSucceeds : Bool) : Bool × Option SpawnCall :=
  match SUPPORTED_EDITORS editor with
  | none => (false, none)
  | some editorConfig =>
    let resolvedFile := resolveLaunchFile cwd projectRoot file
    if fs resolvedFile = false then (false, none)
    else
      let args := editorConfig.args resolvedFile line column
      if spawnSucceeds then (true, some ⟨editorConfig.command, args, true⟩)
      else (false, some ⟨editorConfig.command, args, true⟩)

/-! ## Source resolution (`getComponentSourceLocation`,
`resolveComponentFile`) -/

/-- The `ComponentSource` interface from `types.ts`: all three fields are
required. -/
structure ComponentSource where
  fileName : String
  lineNumber : Nat
  columnNumber : Nat
deriving DecidableEq

/-- The `SourceLocation` interface from `source-navigation.ts`: `line` and
`column` are optional. -/
structure SourceLocation where
  file : String
  line : Option Nat
  column : Option Nat
deriving DecidableEq

/-- The fields of the `ReactComponent` interface that source navigation
reads: `name` (required string), `displayName?`, and `source?`. -/
structure NavComponent where
  name : String
  displayName : Option String
  source : Option ComponentSource

/-- The truthiness chain `component.displayName || component.name`. -/
def componentNameOf (c : NavComponent) : Option String :=
  match strTruthy c.displayName with
  | some s => some s
  | none => strTruthy (some c.name)

/-- Embedding of `getComponentSourceLocation`: with a truthy `source` field
the triple is returned verbatim; otherwise both remaining branches return
`null`. -/
def getComponentSourceLocation (c : NavComponent) : Option SourceLocation :=
  match c.source with
  | some s => some ⟨s.fileName, some s.lineNumber, some s.columnNumber⟩
  | none =>
    match componentNameOf c with
    | some _ => none
    | none => none

/-- The fixed pattern list of `resolveComponentFile`. -/
def componentPatterns (componentName : String) : List String :=
  [componentName ++ ".tsx", componentName ++ ".jsx",
   componentName ++ ".ts", componentName ++ ".js",
   componentName ++ "/index.tsx", componentName ++ "/index.jsx",
   componentName ++ "/index.ts", componentName ++ "/index.js"]

/-- Embedding of `join(projectRoot, srcDir, pattern)` from `node:path`. -/
def joinPath (root dir pat : String) : String :=
  root ++ "/" ++ dir ++ "/" ++ pat

/-- Inner `for` loop of `resolveComponentFile`: probe every pattern inside
one directory, returning on the first hit. -/
def probePatterns (fs : String → Bool) (root dir : String) :
    List String → Option String
  | [] => none
  | pat :: rest =>
    let filePath := joinPath root dir pat
    if fs filePath then some filePath else probePatterns fs root dir rest

/-- Outer `for` loop of `resolveComponentFile`: directories in order, all
patterns exhausted in one directory before the next is tried. -/
def probeDirs (fs : String → Bool) (root : String) (pats : List String) :
    List String → Option String
  | [] => none
  | dir :: rest =>
    match probePatterns fs root dir pats with
    | some p => some p
    | none => probeDirs fs root pats rest

/-- The default `srcDirs` argument of `resolveComponentFile`. -/
def defaultSrcDirs : List String := ["src", "app", "components"]

/-- The name-heuristic tail of `resolveComponentFile`, reached when the
authoritative location is absent or has a falsy `file`. -/
def resolveByName (c : NavComponent) (projectRoot : String)
    (srcDirs : List String) (fs : String → Bool) : Option String :=
  match componentNameOf c with
  | none => none
  | some componentName =>
    probeDirs fs projectRoot (componentPatterns componentName) srcDirs

/-- Embedding of `resolveComponentFile(component, projectRoot, srcDirs)`:
`if (location?.file) return location.file`, else the heuristic probe. -/
def resolveComponentFile (c : NavComponent) (projectRoot : String)
    (srcDirs : List String) (fs : String → Bool) : Option String :=
  match getComponentSourceLocation c with
  | some location =>
    if location.file = "" then resolveByName c projectRoot srcDirs fs
    else some location.file
  | none => resolveByName c projectRoot srcDirs fs

/-! ## Fiber model (`react-detector.ts`)

The `type` field of a raw fiber is one of: `null`/`undefined`, a function
(carrying `displayName`, `name`, a `prototype.isReactComponent` marker and
possibly a `$$typeof` symbol), a DOM tag string, or a symbol-tagged object.
`typeofStr` holds the result of `fiber.type.$$typeof.toString()` when
`$$typeof` is present (a symbol is always truthy). -/
inductive FiberType where
  | null
  | fn (displayName : Option String) (name : Option String)
       (isReactComponentClass : Bool) (typeofStr : Option String)
  | tag (s : String)
  | obj (typeofStr : Option String) (displayName : Option String)
deriving DecidableEq

/-- A node of the singly linked hook chain hanging off `memoizedState`.
`nil` is the JS `null`/`undefined` chain end.  `hasQueueProp` and
`hasDepsProp` model the JS `in` checks for the `queue` and `deps`
properties; `deps` is the truthy value of `hookNode.deps` (`none` for
absent or `null`).  `value` stands for the opaque `memoizedState` of the
hook. -/
inductive HookNode where
  | nil
  | mk (value : String) (hasQueueProp : Bool) (hasDepsProp : Bool)
       (deps : Option (List String)) (next : HookNode)

/-- The closed set of hook kinds `getHookType` can produce. -/
inductive HookType where
  | useState
  | useEffect
  | custom
deriving DecidableEq

/-- The `Hook` record built by `extractHooks`. -/
structure Hook where
  id : Nat
  name : String
  type : HookType
  value : String
  deps : Option (List String)
deriving DecidableEq

/-- Embedding of `getHookName`: always `Hook ${index}`. -/
def getHookName (index : Nat) : String :=
  "Hook " ++ toString index

/-- Embedding of `getHookType`: a `queue` property means `useState`, else a
`deps` property means `useEffect`, else `custom`. -/
def getHookType (hasQueueProp hasDepsProp : Bool) : HookType :=
  if hasQueueProp then .useState
  else if hasDepsProp then .useEffect
  else .custom

/-- The `while (hookNode)` loop of `extractHooks`, with the running
`hookIndex`. -/
def HookNode.toHooks : HookNode → Nat → List Hook
  | .nil, _ => []
  | .mk value hasQ hasD deps next, hookIndex =>
    { id := hookIndex, name := getHookName hookIndex,
      type := getHookType hasQ hasD, value := value, deps := deps } ::
    next.toHooks (hookIndex + 1)

/-- Embedding of `extractHooks` on the inductive (hence acyclic) chain
model; the leading `if (!fiber.memoizedState) return hooks` coincides with
the loop guard on a `nil` chain, and nothing throws here, so the
surrounding `try` is invisible. -/
def extractHooks (memoizedState : HookNode) : List Hook :=
  match memoizedState with
  | .nil => []
  | hookNode => hookNode.toHooks 0

/-- The `name` property of `fiber.type` (only functions have one). -/
def typeNameProp : FiberType → Option String
  | .fn _ name _ _ => name
  | _ => none

/-- The `displayName` property of `fiber.type`. -/
def typeDisplayNameProp : FiberType → Option String
  | .fn displayName _ _ _ => displayName
  | .obj _ displayName => displayName
  | _ => none

/-- Embedding of `generateComponentId`; the `Math.random()` suffix is
supplied by the caller as `rand`. -/
def generateComponentId (t : FiberType) (key : Option String) (index : Nat)
    (rand : String) : String :=
  let tyName := ((strTruthy (typeNameProp t)).orElse
    (fun _ => strTruthy (typeDisplayNameProp t))).getD "Unknown"
  let k := (strTruthy key).getD ""
  tyName ++ "_" ++ k ++ "_" ++ toString index ++ "_" ++ rand

/-- Embedding of `getComponentName`. -/
def getComponentName (t : FiberType) : String :=
  match t with
  | .null => "Unknown"
  | .fn displayName name _ _ =>
    ((strTruthy displayName).orElse (fun _ => strTruthy name)).getD "Anonymous"
  | .tag s => s
  | .obj typeofStr displayName =>
    match typeofStr with
    | some _ => (strTruthy displayName).getD "Component"
    | none => "Unknown"

/-- The closed set of kinds `getComponentType` can produce (the TS union
lists further variants the function never returns). -/
inductive ComponentType where
  | function
  | classComponent
  | memo
  | forwardRef
deriving DecidableEq

/-- Embedding of `getComponentType`. -/
def getComponentType (t : FiberType) : ComponentType :=
  match t with
  | .null => .function
  | .tag _ => .function
  | .fn _ _ isClass typeofStr =>
    if isClass then .classComponent
    else
      match typeofStr with
      | some ts =>
        if strIncludes ts "memo" then .memo
        else if strIncludes ts "forward_ref" then .forwardRef
        else .function
      | none => .function
  | .obj _ _ => .function

/-- The internal marker symbols skipped by `shouldSkipFiber`. -/
def skipTypes : List String :=
  ["react.strict_mode", "react.profiler", "react.suspense", "react.fragment"]

/-- Embedding of `shouldSkipFiber`: only object types with a truthy
`$$typeof` are tested, by substring search on the symbol's string form. -/
def shouldSkipFiber (t : FiberType) : Bool :=
  match t with
  | .obj (some typeString) _ =>
    skipTypes.any (fun skipType => strIncludes typeString skipType)
  | _ => false

/-- A raw fiber for the walker: the fields `fiberToComponent` reads, with
`child` and `sibling` links.  `nil` is the JS `null` pointer, so `child`
and `sibling` chains end in `nil`.  The inductive representation covers
exactly the finite acyclic fiber trees; cyclic graphs are modelled
separately below. -/
inductive Fiber where
  | nil
  | mk (type : FiberType) (key : Option String) (index : Nat)
       (memoizedProps : Option (List (String × String)))
       (memoizedState : HookNode)
       (child : Fiber) (sibling : Fiber)

/-- The `sibling` field of a fiber (`nil` for the null fiber). -/
def Fiber.sibling : Fiber → Fiber
  | .nil => .nil
  | .mk _ _ _ _ _ _ s => s

/-- The `child` field of a fiber (`nil` for the null fiber). -/
def Fiber.child : Fiber → Fiber
  | .nil => .nil
  | .mk _ _ _ _ _ c _ => c

/-- The extracted component node.  The `parent` back-reference and the
`fiber` back-reference of the TS interface are not modelled (no claim reads
them); `source` is omitted because `getComponentSource` always returns
`undefined`. -/
inductive Component where
  | mk (id : String) (name : String) (type : ComponentType)
       (props : List (String × String)) (state : HookNode)
       (hooks : List Hook) (children : List Component)

/-- The `children` field of a component. -/
def Component.children : Component → List Component
  | .mk _ _ _ _ _ _ cs => cs

/-- The `name` field of a component. -/
def Component.name : Component → String
  | .mk _ n _ _ _ _ _ => n

/-- The `id` field of a component. -/
def Component.id : Component → String
  | .mk i _ _ _ _ _ _ => i

/-- Fused embedding of `fiberToComponent` and its `while (child)` sibling
loop, processing a whole sibling chain: a skipped fiber contributes nothing
and the loop moves to its sibling; a materialized fiber draws one
`Math.random()` value (the oracle `rnd` at the running call counter `ctr`),
recurses into its child chain at `depth + 1`, and is prepended to the rest
of its own chain.  This fused form is structurally recursive; the lemma
`walkChainR_cons` below re-establishes the per-node shape of the original
`fiberToComponent`. -/
def walkChainR (rnd : Nat → String) :
    Fiber → Nat → Nat → List Component × Nat
  | .nil, _, ctr => ([], ctr)
  | .mk t key index props st child sib, depth, ctr =>
    if shouldSkipFiber t then walkChainR rnd sib depth ctr
    else
      let cr := walkChainR rnd child (depth + 1) (ctr + 1)
      let sr := walkChainR rnd sib depth cr.2
      (Component.mk (generateComponentId t key index (rnd ctr))
        (getComponentName t) (getComponentType t) (props.getD []) st
        (extractHooks st) cr.1 :: sr.1, sr.2)

/-- Embedding of `fiberToComponent(fiber, depth)` for one fiber (the
caller, not this function, iterates over siblings): `null` for a null or
skipped fiber, otherwise the component with its extracted child chain.
The `depth` parameter is threaded to children as `depth + 1` exactly as in
the source — and, exactly as in the source, it is never tested. -/
def fiberToComponentR (rnd : Nat → String) (f : Fiber) (depth ctr : Nat) :
    Option Component × Nat :=
  match f with
  | .nil => (none, ctr)
  | .mk t key index props st child _sib =>
    if shouldSkipFiber t then (none, ctr)
    else
      let cr := walkChainR rnd child (depth + 1) (ctr + 1)
      (some (Component.mk (generateComponentId t key index (rnd ctr))
        (getComponentName t) (getComponentType t) (props.getD []) st
        (extractHooks st) cr.1), cr.2)

/-- Sanity bridge: on a nonempty chain the fused walker performs exactly
one `fiberToComponent` step — convert the head (pushing it only when
non-null) and continue with the head's sibling. -/
theorem walkChainR_cons (rnd : Nat → String) (t : FiberType)
    (key : Option String) (index : Nat)
    (props : Option (List (String × String))) (st : HookNode)
    (child sib : Fiber) (depth ctr : Nat) :
    walkChainR rnd (.mk t key index props st child sib) depth ctr =
      (let (head, ctr') :=
        fiberToComponentR rnd (.mk t key index props st child sib) depth ctr
       let (rest, ctr'') := walkChainR rnd sib depth ctr'
       ((match head with
         | some comp => comp :: rest
         | none => rest), ctr'')) := by
  simp only [walkChainR, fiberToComponentR]
  by_cases h : shouldSkipFiber t
  · simp [h]
  · simp [h]

/-- Extraction from a single raw root, as `getComponentTree` invokes it:
`fiberToComponent(current.child)` with depth `0` and a fresh random
stream. -/
def extract (rnd : Nat → String) (f : Fiber) : Option Component :=
  (fiberToComponentR rnd f 0 0).1

/-! ## Pointer-graph models

The inductive `Fiber`/`HookNode` types can only represent finite acyclic
structures, but the live graphs `fiberToComponent` and `extractHooks` walk
are arbitrary object graphs: a `child`, `sibling` or `next` reference may
point back to an earlier node.  To settle the termination claims, the same
code is therefore also embedded over graphs of numbered nodes, with
explicit fuel: a `none` result means the original unbounded recursion has
not completed within that much fuel, so a graph on which every fuel yields
`none` is one on which the original code never terminates. -/

/-- A raw fiber in the pointer-graph representation: `child` and `sibling`
are node references (`none` is the JS `null`). -/
structure GFiber where
  type : FiberType
  key : Option String
  index : Nat
  memoizedProps : Option (List (String × String))
  memoizedState : HookNode
  child : Option Nat
  sibling : Option Nat

/-- Fuel-indexed version of the fused `fiberToComponent` sibling walk of
`walkChainR`, over a pointer graph `g`.  A dangling reference behaves like
the JS `null` and ends the chain. -/
def walkChainG (g : Nat → Option GFiber) (rnd : Nat → String) :
    Nat → Option Nat → Nat → Nat → Option (List Component × Nat)
  | _, none, _, ctr => some ([], ctr)
  | 0, some _, _, _ => none
  | fuel + 1, some p, depth, ctr =>
    match g p with
    | none => some ([], ctr)
    | some f =>
      if shouldSkipFiber f.type then walkChainG g rnd fuel f.sibling depth ctr
      else
        match walkChainG g rnd fuel f.child (depth + 1) (ctr + 1) with
        | none => none
        | some (children, ctr') =>
          match walkChainG g rnd fuel f.sibling depth ctr' with
          | none => none
          | some (rest, ctr'') =>
            some (Component.mk
              (generateComponentId f.type f.key f.index (rnd ctr))
              (getComponentName f.type) (getComponentType f.type)
              (f.memoizedProps.getD []) f.memoizedState
              (extractHooks f.memoizedState) children :: rest, ctr'')

/-- Fuel-indexed `fiberToComponent(p, depth)` over a pointer graph, for a
single fiber reference: `some` of the code's result when the recursion
completes within the fuel, `none` when it is still running. -/
def fiberToComponentG (g : Nat → Option GFiber) (rnd : Nat → String)
    (fuel : Nat) (p : Nat) (depth ctr : Nat) :
    Option (Option Component × Nat) :=
  match g p with
  | none => some (none, ctr)
  | some f =>
    if shouldSkipFiber f.type then some (none, ctr)
    else
      match walkChainG g rnd fuel f.child (depth + 1) (ctr + 1) with
      | none => none
      | some (children, ctr') =>
        some (some (Component.mk
          (generateComponentId f.type f.key f.index (rnd ctr))
          (getComponentName f.type) (getComponentType f.type)
          (f.memoizedProps.getD []) f.memoizedState
          (extractHooks f.memoizedState) children), ctr')

/-- A raw hook node in the pointer-graph representation. -/
structure GHook where
  value : String
  hasQueueProp : Bool
  hasDepsProp : Bool
  deps : Option (List String)
  next : Option Nat

/-- Fuel-indexed version of the `while (hookNode)` loop of `extractHooks`
over a hook graph.  The boolean tells whether the loop reached the end of
the chain within the fuel; the list holds the `Hook` records pushed so
far, so a run that ends with `false` describes a prefix of a
still-running execution of the original loop. -/
def extractHooksG (hg : Nat → Option GHook) :
    Nat → Option Nat → Nat → List Hook × Bool
  | _, none, _ => ([], true)
  | 0, some _, _ => ([], false)
  | fuel + 1, some p, hookIndex =>
    match hg p with
    | none => ([], true)
    | some h =>
      let record : Hook :=
        { id := hookIndex, name := getHookName hookIndex,
          type := getHookType h.hasQueueProp h.hasDepsProp,
          value := h.value, deps := h.deps }
      let rd := extractHooksG hg fuel h.next (hookIndex + 1)
      (record :: rd.1, rd.2)

/-! ## Exception model for `getComponentTree`

In `getComponentTree` the whole traversal sits inside one `try`; the
`catch` logs and returns `[]`.  `fiberToComponent` itself contains no
handler, so an exception thrown while reading a raw node propagates out of
the entire recursion.  Fibers here carry a `readThrows` flag meaning
"reading this raw node throws"; the walk is embedded in `Except Unit`.
The `Math.random()` suffix of generated ids is fixed to the empty string,
since ids are irrelevant to error propagation, and the unused `depth`
counter is dropped. -/

/-- A raw fiber that may throw when read. -/
inductive FiberE where
  | nil
  | mk (type : FiberType) (key : Option String) (index : Nat)
       (memoizedProps : Option (List (String × String)))
       (memoizedState : HookNode) (readThrows : Bool)
       (child : FiberE) (sibling : FiberE)

/-- The `child` field of a possibly-throwing fiber. -/
def FiberE.child : FiberE → FiberE
  | .nil => .nil
  | .mk _ _ _ _ _ _ c _ => c

/-- Fused sibling walk of `fiberToComponent` over possibly-throwing
fibers; an exception from any node aborts the whole walk, because the
recursion contains no handler. -/
def walkChainE : FiberE → Except Unit (List Component)
  | .nil => .ok []
  | .mk t key index props st readThrows child sib =>
    if readThrows then .error ()
    else if shouldSkipFiber t then walkChainE sib
    else
      match walkChainE child with
      | .error e => .error e
      | .ok children =>
        match walkChainE sib with
        | .error e => .error e
        | .ok rest =>
          .ok (Component.mk (generateComponentId t key index "")
            (getComponentName t) (getComponentType t) (props.getD []) st
            (extractHooks st) children :: rest)

/-- `fiberToComponent` over possibly-throwing fibers, for a single fiber
(siblings of the argument are the caller's business). -/
def fiberToComponentE : FiberE → Except Unit (Option Component)
  | .nil => .ok none
  | .mk t key index props st readThrows child _sib =>
    if readThrows then .error ()
    else if shouldSkipFiber t then .ok none
    else
      match walkChainE child with
      | .error e => .error e
      | .ok children =>
        .ok (some (Component.mk (generateComponentId t key index "")
          (getComponentName t) (getComponentType t) (props.getD []) st
          (extractHooks st) children))

/-- Embedding of `getComponentTree`, starting from the root container (the
fiber reached by walking `return` pointers upward, whose lookup is not
modelled): `fiberToComponent(current.child)` runs inside the single `try`,
whose `catch` returns the empty forest. -/
def getComponentTreeFrom (container : FiberE) : List Component :=
  match container.child with
  | .nil => []
  | c =>
    match fiberToComponentE c with
    | .error _ => []
    | .ok none => []
    | .ok (some comp) => [comp]

/-! ## Snapshot shape

The observable part of a snapshot that the determinism claim compares:
name, kind and child order, with the randomly disambiguated `id` (and the
id-independent payload fields) erased. -/

/-- A snapshot tree with ids erased: name, kind, and children in order. -/
inductive Shape where
  | mk (name : String) (type : ComponentType) (children : List Shape)

mutual

/-- Erase ids (and payloads) from a component, keeping name, kind and
child order. -/
def Component.shape : Component → Shape
  | .mk _ name ty _ _ _ children => .mk name ty (shapeList children)

/-- Erase ids from a list of components, preserving order. -/
def shapeList : List Component → List Shape
  | [] => []
  | c :: cs => Component.shape c :: shapeList cs

end

/-! ## Concrete fixtures -/

/-- A plain function component named `Hello` with no children. -/
def helloFiber : Fiber :=
  .mk (.fn none (some "Hello") false none) none 0 none .nil .nil .nil

/-- A plain function component named `Good`, sibling-terminal. -/
def goodFiber : Fiber :=
  .mk (.fn none (some "Good") false none) none 1 none .nil .nil .nil

/-- The symbol string of a marker fiber. -/
def fragSymbol : FiberType := .obj (some "Symbol(react.fragment)") none

/-- A bare fragment wrapper (an internal marker kind) whose child is
`helloFiber` and whose sibling is `goodFiber`. -/
def fragFiber : Fiber :=
  .mk fragSymbol none 0 none .nil helloFiber goodFiber

/-- A root component `App` whose child chain is `fragFiber, goodFiber`. -/
def appFiber : Fiber :=
  .mk (.fn none (some "App") false none) none 0 none .nil fragFiber .nil

/-- A one-node cyclic fiber graph: node `0` is a plain function component
whose `child` reference points back to itself. -/
def cyclicFiberGraph : Nat → Option GFiber
  | 0 => some ⟨.fn none (some "Loop") false none, none, 0, none, .nil,
      some 0, none⟩
  | _ => none

/-- A one-node cyclic hook graph: node `0` is a stateful hook whose `next`
reference points back to itself. -/
def cyclicHookGraph : Nat → Option GHook
  | 0 => some ⟨"v", true, false, none, some 0⟩
  | _ => none

/-- A well-behaved component `Good` in the possibly-throwing model. -/
def goodFiberE : FiberE :=
  .mk (.fn none (some "Good") false none) none 0 none .nil false .nil .nil

/-- A raw node whose read throws, sibling of nothing. -/
def badFiberE : FiberE :=
  .mk (.fn none (some "Bad") false none) none 1 none .nil true .nil .nil

/-- An `App` root whose child chain is `Good` followed by the throwing
node. -/
def appWithBadChild : FiberE :=
  .mk (.fn none (some "App") false none) none 0 none .nil false
    (.mk (.fn none (some "Good") false none) none 0 none .nil false .nil
      badFiberE) .nil

/-- The same `App` root with the throwing sibling removed. -/
def appAllGood : FiberE :=
  .mk (.fn none (some "App") false none) none 0 none .nil false
    goodFiberE .nil

/-- The root container whose only child is `appWithBadChild`. -/
def containerBad : FiberE :=
  .mk .null none 0 none .nil false appWithBadChild .nil

/-- The root container whose only child is `appAllGood`. -/
def containerGood : FiberE :=
  .mk .null none 0 none .nil false appAllGood .nil

/-- A component carrying a non-null `source` whose `fileName` is the empty
string — non-null metadata that is nevertheless falsy in JS. -/
def emptyFileComp : NavComponent :=
  { name := "A", displayName := none,
    source := some { fileName := "", lineNumber := 5, columnNumber := 3 } }

/-- The `UserCard` component of the end-to-end scenario: a display name
and no authoritative source. -/
def userCardComp : NavComponent :=
  { name := "UserCard", displayName := none, source := none }

/-! ## Claim theorems -/

/-- C6: every registered editor profile supports the three call shapes and
produces its documented grammar: `code` with file+line yields
`['--goto','main.ts:10']`, with file+line+column `['--goto','main.ts:10:3']`,
and with file only `['--goto','main.ts']`; `vim` with file+line yields
`['+10','main.ts']`; `idea` with file+line yields its flag form
`['--line','main.ts:10']`; the profile table, not the caller, encodes the
difference. -/
theorem supportedEditors_arg_grammars :
    ((SUPPORTED_EDITORS "code").map
      (fun cfg => cfg.args "main.ts" (some 10) none)) =
        some ["--goto", "main.ts:10"] ∧
    ((SUPPORTED_EDITORS "code").map
      (fun cfg => cfg.args "main.ts" (some 10) (some 3))) =
        some ["--goto", "main.ts:10:3"] ∧
    ((SUPPORTED_EDITORS "code").map
      (fun cfg => cfg.args "main.ts" none none)) =
        some ["--goto", "main.ts"] ∧
    ((SUPPORTED_EDITORS "vim").map
      (fun cfg => cfg.args "main.ts" (some 10) none)) =
        some ["+10", "main.ts"] ∧
    ((SUPPORTED_EDITORS "idea").map
      (fun cfg => cfg.args "main.ts" (some 10) none)) =
        some ["--line", "main.ts:10"] :=
  ⟨rfl, rfl, rfl, rfl, rfl⟩

/-- C10: in every `path:line:column`-token profile (`code`,
`code-insiders`, `sublime`, `atom`) a line or column equal to `0` is
treated as absent, because the builders test JS truthiness: the shared
token builder maps a zero line or column to the same token as an omitted
one, so for example `code` at `(10, 0)` yields `['--goto','main.ts:10']`
and at `(0, 3)` yields `['--goto','main.ts']`, never a token containing
`:0`. -/
theorem editorArgs_zero_treated_as_absent :
    (∀ file line column,
      gotoLocation file line (some 0) = gotoLocation file line none ∧
      gotoLocation file (some 0) column = gotoLocation file none column) ∧
    ((SUPPORTED_EDITORS "code").map
      (fun cfg => cfg.args "main.ts" (some 10) (some 0))) =
        some ["--goto", "main.ts:10"] ∧
    ((SUPPORTED_EDITORS "code").map
      (fun cfg => cfg.args "main.ts" (some 0) (some 3))) =
        some ["--goto", "main.ts"] ∧
    ((SUPPORTED_EDITORS "code-insiders").map
      (fun cfg => cfg.args "main.ts" (some 10) (some 0))) =
        some ["--goto", "main.ts:10"] ∧
    ((SUPPORTED_EDITORS "code-insiders").map
      (fun cfg => cfg.args "main.ts" (some 0) (some 3))) =
        some ["--goto", "main.ts"] ∧
    ((SUPPORTED_EDITORS "sublime").map
      (fun cfg => cfg.args "main.ts" (some 10) (some 0))) =
        some ["main.ts:10"] ∧
    ((SUPPORTED_EDITORS "sublime").map
      (fun cfg => cfg.args "main.ts" (some 0) (some 3))) =
        some ["main.ts"] ∧
    ((SUPPORTED_EDITORS "atom").map
      (fun cfg => cfg.args "main.ts" (some 10) (some 0))) =
        some ["main.ts:10"] ∧
    ((SUPPORTED_EDITORS "atom").map
      (fun cfg => cfg.args "main.ts" (some 0) (some 3))) =
        some ["main.ts"] :=
  ⟨fun _file _line _column => ⟨rfl, rfl⟩,
   rfl, rfl, rfl, rfl, rfl, rfl, rfl, rfl⟩

/-- C5 counterexample: a component whose `source` field is non-null but
whose `fileName` is the empty string.  `resolveComponentFile` then falls
through to the heuristic probe, so its result does depend on filesystem
state — two filesystems give two different answers — refuting the claim
that a non-null `source` field alone guarantees verbatim return with no
filesystem access. -/
theorem resolveComponentFile_reads_fs_on_empty_fileName :
    emptyFileComp.source ≠ none ∧
    resolveComponentFile emptyFileComp "/proj" defaultSrcDirs
      (fun _ => false) = none ∧
    resolveComponentFile emptyFileComp "/proj" defaultSrcDirs
      (fun p => p == "/proj/src/A.tsx") = some "/proj/src/A.tsx" :=
  ⟨by decide, rfl, rfl⟩

/-- C5 (amended): for every component carrying a non-null `source` field,
`getComponentSourceLocation` returns `{file, line, column}` verbatim from
`fileName`/`lineNumber`/`columnNumber`; and whenever that `fileName` is
additionally non-empty (hence truthy), `resolveComponentFile` returns it
with no filesystem access — the result is identical for every filesystem
and every `projectRoot`, including a non-existent directory. -/
theorem authoritative_source_returned_verbatim (c : NavComponent)
    (s : ComponentSource) (h : c.source = some s) :
    getComponentSourceLocation c =
      some ⟨s.fileName, some s.lineNumber, some s.columnNumber⟩ ∧
    (s.fileName ≠ "" → ∀ root root' dirs fs fs',
      resolveComponentFile c root dirs fs = some s.fileName ∧
      resolveComponentFile c root dirs fs =
        resolveComponentFile c root' dirs fs') := by
  constructor
  · simp [getComponentSourceLocation, h]
  · intro hne root root' dirs fs fs'
    constructor <;>
      simp [resolveComponentFile, getComponentSourceLocation, h, hne]

/-- Witness for C5 (amended) at a concrete component with authoritative
metadata, probed against a non-existent project root. -/
theorem authoritative_source_returned_verbatim_witness :
    getComponentSourceLocation
        ⟨"C", none, some ⟨"/proj/src/C.tsx", 7, 2⟩⟩ =
      some ⟨"/proj/src/C.tsx", some 7, some 2⟩ ∧
    resolveComponentFile ⟨"C", none, some ⟨"/proj/src/C.tsx", 7, 2⟩⟩
      "/nonexistent" defaultSrcDirs (fun _ => false) =
        some "/proj/src/C.tsx" := by
  have h := authoritative_source_returned_verbatim
    ⟨"C", none, some ⟨"/proj/src/C.tsx", 7, 2⟩⟩ ⟨"/proj/src/C.tsx", 7, 2⟩ rfl
  exact ⟨h.1, (h.2 (by decide) "/nonexistent" "/x" defaultSrcDirs
    (fun _ => false) (fun _ => false)).1⟩

/-- C7: `launchEditor` returns `false` and attempts no spawn when the
editor key is not in the registry or when the resolved file does not
exist; when the key is registered and the file exists it spawns exactly
the profile's command on the profile's arguments with `detached` set, and
its boolean result equals whether the spawn call itself succeeded — no
exit code of the editor exists in the model at all. -/
theorem launchEditor_failure_and_spawn_semantics :
    (∀ editor file line column projectRoot cwd fs spawnOk,
      SUPPORTED_EDITORS editor = none →
      launchEditor editor file line column projectRoot cwd fs spawnOk =
        (false, none)) ∧
    (∀ editor cfg file line column projectRoot cwd fs spawnOk,
      SUPPORTED_EDITORS editor = some cfg →
      fs (resolveLaunchFile cwd projectRoot file) = false →
      launchEditor editor file line column projectRoot cwd fs spawnOk =
        (false, none)) ∧
    (∀ editor cfg file line column projectRoot cwd fs spawnOk,
      SUPPORTED_EDITORS editor = some cfg →
      fs (resolveLaunchFile cwd projectRoot file) = true →
      launchEditor editor file line column projectRoot cwd fs spawnOk =
        (spawnOk, some ⟨cfg.command,
          cfg.args (resolveLaunchFile cwd projectRoot file) line column,
          true⟩)) := by
  refine ⟨?_, ?_, ?_⟩
  · intro editor file line column projectRoot cwd fs spawnOk h
    simp [launchEditor, h]
  · intro editor cfg file line column projectRoot cwd fs spawnOk h hfs
    simp [launchEditor, h, hfs]
  · intro editor cfg file line column projectRoot cwd fs spawnOk h hfs
    cases spawnOk <;> simp [launchEditor, h, hfs]

/-- Witness for C7: an unregistered key (`nano`), a registered key with a
missing file, and a registered key with an existing file resolved against
the project root and spawned detached. -/
theorem launchEditor_failure_and_spawn_semantics_witness :
    launchEditor "nano" "main.ts" none none none "/cwd"
      (fun _ => true) true = (false, none) ∧
    launchEditor "code" "main.ts" (some 10) none none "/cwd"
      (fun _ => false) true = (false, none) ∧
    launchEditor "code" "main.ts" (some 10) none (some "/proj") "/cwd"
      (fun _ => true) true =
      (true, some ⟨"code", ["--goto", "/proj/main.ts:10"], true⟩) := by
  refine ⟨?_, ?_, ?_⟩
  · exact launchEditor_failure_and_spawn_semantics.1 "nano" "main.ts"
      none none none "/cwd" (fun _ => true) true rfl
  · exact launchEditor_failure_and_spawn_semantics.2.1 "code" _ "main.ts"
      (some 10) none none "/cwd" (fun _ => false) true rfl rfl
  · exact launchEditor_failure_and_spawn_semantics.2.2 "code" _ "main.ts"
      (some 10) none (some "/proj") "/cwd" (fun _ => true) true rfl rfl

/-- The inner probe loop is `find?` over the patterns joined into one
directory. -/
theorem probePatterns_eq_find (fs : String → Bool) (root dir : String)
    (pats : List String) :
    probePatterns fs root dir pats = (pats.map (joinPath root dir)).find? fs := by
  induction pats with
  | nil => rfl
  | cons pat rest ih =>
    simp only [probePatterns, List.map, List.find?]
    by_cases h : fs (joinPath root dir pat)
    · simp [h]
    · simp [h, ih]

/-- The outer probe loop is `find?` over the directory-major candidate
list. -/
theorem probeDirs_eq_find (fs : String → Bool) (root : String)
    (pats : List String) (dirs : List String) :
    probeDirs fs root pats dirs =
      (dirs.flatMap (fun dir => pats.map (joinPath root dir))).find? fs := by
  induction dirs with
  | nil => rfl
  | cons dir rest ih =>
    rw [List.flatMap_cons, List.find?_append, ← ih, ← probePatterns_eq_find]
    simp only [probeDirs]
    cases probePatterns fs root dir pats <;> simp

/-- C8: for a component without authoritative source metadata but with a
truthy display name, `resolveComponentFile` returns the first existing
path among the fixed patterns
`[Name.tsx, Name.jsx, Name.ts, Name.js, Name/index.tsx, Name/index.jsx,
Name/index.ts, Name/index.js]` joined under each directory of `searchDirs`
in order, all patterns of one directory exhausted before the next
directory is tried; with no match anywhere (or no name at all) the result
is `null`, not an error. -/
theorem resolveComponentFile_probe_order (c : NavComponent) (root : String)
    (dirs : List String) (fs : String → Bool) (n : String)
    (hsrc : c.source = none) (hname : componentNameOf c = some n) :
    resolveComponentFile c root dirs fs =
      (dirs.flatMap
        (fun dir => (componentPatterns n).map (joinPath root dir))).find?
        fs := by
  have hloc : getComponentSourceLocation c = none := by
    simp only [getComponentSourceLocation, hsrc, hname]
  simp only [resolveComponentFile, hloc, resolveByName, hname,
    probeDirs_eq_find]

/-- Witness for C8: the `UserCard` end-to-end scenario — with
`/proj/src/UserCard.tsx` present that path is returned, and with an empty
filesystem the result is `null`. -/
theorem resolveComponentFile_probe_order_witness :
    userCardComp.source = none ∧
    componentNameOf userCardComp = some "UserCard" ∧
    resolveComponentFile userCardComp "/proj" ["src"]
      (fun p => p == "/proj/src/UserCard.tsx") = some "/proj/src/UserCard.tsx" ∧
    resolveComponentFile userCardComp "/proj" defaultSrcDirs
      (fun _ => false) = none := by
  refine ⟨rfl, by decide, ?_, ?_⟩
  · rw [resolveComponentFile_probe_order userCardComp "/proj" ["src"]
      (fun p => p == "/proj/src/UserCard.tsx") "UserCard" rfl (by decide)]
    rfl
  · rw [resolveComponentFile_probe_order userCardComp "/proj" defaultSrcDirs
      (fun _ => false) "UserCard" rfl (by decide)]
    rfl

/-- C1 counterexample: a bare fragment marker whose child is a `Hello`
component and whose sibling is `Good`, under an `App` root.
`fiberToComponent` returns `null` for the marker without visiting its
children, so the snapshot of `App` contains only `Good` — the descendant
`Hello` of the skipped node is lost and is not reparented to `App`,
refuting the skipped-but-not-pruned claim. -/
theorem skipped_fiber_descendants_lost :
    shouldSkipFiber fragSymbol = true ∧
    fiberToComponentR (fun _ => "") fragFiber 1 1 = (none, 1) ∧
    (extract (fun _ => "") appFiber).map
      (fun c => c.children.map (fun k => (k.name, k.children.length))) =
      some [("Good", 0)] :=
  ⟨by decide, rfl, rfl⟩

/-- C1 (amended): an internal marker fiber (strict-mode wrapper, profiler
wrapper, suspense bookkeeping, bare fragment) is pruned together with its
entire subtree: `fiberToComponent` returns `null` for it before reading
its children, so none of its descendants appear in the snapshot; only the
sibling chain of the skipped node continues to be traversed by the
caller's loop. -/
theorem skipped_fiber_prunes_subtree (rnd : Nat → String) (t : FiberType)
    (key : Option String) (index : Nat)
    (props : Option (List (String × String))) (st : HookNode)
    (child sib : Fiber) (depth ctr : Nat)
    (h : shouldSkipFiber t = true) :
    fiberToComponentR rnd (.mk t key index props st child sib) depth ctr =
      (none, ctr) := by
  simp [fiberToComponentR, h]

/-- Witness for C1 (amended) at the concrete fragment marker fiber. -/
theorem skipped_fiber_prunes_subtree_witness :
    shouldSkipFiber fragSymbol = true ∧
    fiberToComponentR (fun _ => "") fragFiber 0 0 = (none, 0) :=
  ⟨by decide, skipped_fiber_prunes_subtree (fun _ => "") fragSymbol none 0
    none .nil helloFiber goodFiber 0 0 (by decide)⟩

/-- C4 counterexample: under the root container, `App`'s child chain is
`Good` followed by a node whose read throws.  The single `try` of
`getComponentTree` catches the propagated exception and returns the empty
forest, so the snapshot of the unaffected `Good` node is discarded along
with everything else; removing the bad node shows what was lost. -/
theorem one_bad_node_discards_all_snapshots :
    getComponentTreeFrom containerBad = [] ∧
    (getComponentTreeFrom containerGood).map
      (fun c => (c.name, c.children.map Component.name)) =
      [("App", ["Good"])] :=
  ⟨rfl, rfl⟩

/-- C4 (amended): a raw-node read that throws is caught only by the single
`try` wrapping the whole extraction: `fiberToComponent` itself has no
handler, the exception propagates, and `getComponentTree` returns the
empty forest — no snapshot of any node is returned, but the error never
escapes to the caller (the function totally returns a list). -/
theorem throwing_node_aborts_whole_extraction (container c : FiberE)
    (hc : container.child = c) (hthrow : fiberToComponentE c = .error ()) :
    getComponentTreeFrom container = [] := by
  unfold getComponentTreeFrom
  rw [hc]
  cases c with
  | nil => simp [fiberToComponentE] at hthrow
  | mk t key index props st readThrows child sib => simp [hthrow]

/-- Witness for C4 (amended) at the concrete container whose `App` subtree
holds one throwing node. -/
theorem throwing_node_aborts_whole_extraction_witness :
    fiberToComponentE appWithBadChild = .error () ∧
    getComponentTreeFrom containerBad = [] :=
  ⟨rfl, throwing_node_aborts_whole_extraction containerBad appWithBadChild
    rfl rfl⟩

/-- C2 (code bug): `extractHooks` has no maximum-hook-count guard at all —
on the one-node cyclic chain the `while (hookNode)` loop never reaches the
chain end, whatever fuel it is given (so the original unbounded loop never
terminates), and after 51 iterations it has already pushed 51 records,
exceeding the recommended bound of 50 the specification requires. -/
theorem extractHooks_unbounded_on_cyclic_chain :
    (∀ fuel hookIndex,
      (extractHooksG cyclicHookGraph fuel (some 0) hookIndex).2 = false) ∧
    (extractHooksG cyclicHookGraph 51 (some 0) 0).1.length = 51 := by
  constructor
  · intro fuel
    induction fuel with
    | zero => intro hookIndex; rfl
    | succ n ih => intro hookIndex; simp [extractHooksG, cyclicHookGraph, ih]
  · rfl

/-- Helper: on the self-cyclic fiber graph the sibling walk starting at
node `0` never completes, whatever the fuel. -/
theorem walkChainG_cycle_never_completes (rnd : Nat → String)
    (fuel depth ctr : Nat) :
    walkChainG cyclicFiberGraph rnd fuel (some 0) depth ctr = none := by
  induction fuel generalizing depth ctr with
  | zero => rfl
  | succ n ih => simp [walkChainG, cyclicFiberGraph, shouldSkipFiber, ih]

/-- C3 (code bug): `fiberToComponent` checks no depth bound (its `depth`
parameter is threaded but never tested) and keeps no materialized-node
guard, so on the one-node cyclic graph whose `child` points to itself the
recursion never completes for any fuel — the original unbounded recursion
does not terminate, against the claimed bounded-depth truncation
guarantee. -/
theorem fiberToComponent_diverges_on_cyclic_graph :
    ∀ (rnd : Nat → String) (fuel depth ctr : Nat),
      fiberToComponentG cyclicFiberGraph rnd fuel 0 depth ctr = none := by
  intro rnd fuel depth ctr
  simp [fiberToComponentG, cyclicFiberGraph, shouldSkipFiber,
    walkChainG_cycle_never_completes]

/-- Helper for C9: the erased shape (name, kind, child order) of a sibling
walk is independent of the random stream and of the call counter. -/
theorem walkChainR_shape_indep (r1 r2 : Nat → String) :
    ∀ (f : Fiber) (depth c1 c2 : Nat),
      shapeList (walkChainR r1 f depth c1).1 =
        shapeList (walkChainR r2 f depth c2).1 := by
  intro f
  induction f with
  | nil => intro depth c1 c2; rfl
  | mk t key index props st child sib ih_child ih_sib =>
    intro depth c1 c2
    cases h : shouldSkipFiber t with
    | true =>
      simp only [walkChainR, h, if_true]
      exact ih_sib depth c1 c2
    | false =>
      have hc := ih_child (depth + 1) (c1 + 1) (c2 + 1)
      have hs := ih_sib depth (walkChainR r1 child (depth + 1) (c1 + 1)).2
        (walkChainR r2 child (depth + 1) (c2 + 1)).2
      simp only [walkChainR, h, Bool.false_eq_true, if_false, shapeList,
        Component.shape]
      rw [hc, hs]

/-- C9: extraction is deterministic modulo ids — applied twice to the same
graph with two different `Math.random()` streams, the resulting snapshots
have identical name, kind and child-order structure (their randomly
disambiguated ids may differ). -/
theorem extract_deterministic_modulo_ids (f : Fiber)
    (r1 r2 : Nat → String) :
    (extract r1 f).map Component.shape = (extract r2 f).map Component.shape := by
  cases f with
  | nil => rfl
  | mk t key index props st child sib =>
    cases h : shouldSkipFiber t with
    | true => simp [extract, fiberToComponentR, h]
    | false =>
      have hc := walkChainR_shape_indep r1 r2 child (0 + 1) (0 + 1) (0 + 1)
      simp only [extract, fiberToComponentR, h, Bool.false_eq_true, if_false]
      simp [Component.shape, hc]

end ReactDevtools
